import Mathlib

/-!
Shallow embedding of the request-to-SQL translation layer of the racing and
sports services: the filter compilers (`applyFilter` of the races and events
repositories), the order compiler (`convertOrderByFieldToSql`,
`convertOrderByToSql`, `applyOrdering`), the derived-status computation
(`getRaceStatus` / `getEventStatus`), the row materializer (`scanRaces`) and
the repository operations `Init` and `Get`.

Go strings are Lean `String`, `int64` is `Int`, `time.Time` instants are `Int`
seconds since the Unix epoch (only their ordering and the proto-timestamp
validity bounds matter here), and SQL arguments are the inductive `Arg`.
A Go runtime panic is modelled as `Option.none`.
-/

/-- Go `strings.Repeat s n`: `n` copies of `s` concatenated.  In the source it
is only reached with a non-negative count. -/
def goRepeat (s : String) : Nat → String
  | 0 => ""
  | n + 1 => s ++ goRepeat s n

/-- Go `unicode.IsSpace` on the Latin-1 range: tab, newline, vertical tab,
form feed, carriage return, space, next-line and no-break space. -/
def goIsSpace (c : Char) : Bool :=
  c == '\t' || c == '\n' || c == Char.ofNat 11 || c == Char.ofNat 12 ||
  c == '\r' || c == ' ' || c == Char.ofNat 133 || c == Char.ofNat 160

/-- Character loop of Go `strings.Fields`: `cur` is the reversed current
token. -/
def goFieldsAux : List Char → List Char → List (List Char)
  | [], cur => if cur.isEmpty then [] else [cur.reverse]
  | c :: rest, cur =>
    if goIsSpace c then
      if cur.isEmpty then goFieldsAux rest []
      else cur.reverse :: goFieldsAux rest []
    else goFieldsAux rest (c :: cur)

/-- Go `strings.Fields`: split around runs of whitespace, dropping empty
tokens. -/
def goFields (s : String) : List String :=
  (goFieldsAux s.data []).map List.asString

/-- Character loop of Go `strings.Split` with the one-character separator
`","` as used by the source. -/
def goSplitCommaAux : List Char → List Char → List String
  | [], cur => [cur.reverse.asString]
  | c :: rest, cur =>
    if c = ',' then cur.reverse.asString :: goSplitCommaAux rest []
    else goSplitCommaAux rest (c :: cur)

/-- Go `strings.Split s ","`. -/
def goSplitComma (s : String) : List String := goSplitCommaAux s.data []

/-- Go `strings.TrimSpace`: strip leading and trailing whitespace. -/
def goTrim (s : String) : String :=
  (((s.data.dropWhile goIsSpace).reverse.dropWhile goIsSpace).reverse).asString

/-- Go `unicode.ToLower` on the ASCII range (the only range the order
compiler's `"desc"` comparison is sensitive to). -/
def goToLowerChar (c : Char) : Char :=
  if 'A' ≤ c ∧ c ≤ 'Z' then Char.ofNat (c.toNat + 32) else c

/-- Go `strings.ToLower`. -/
def goToLower (s : String) : String := (s.data.map goToLowerChar).asString

/-- Go `strings.Contains s sub`: `sub` occurs as a contiguous substring of
`s`. -/
def goContains (s sub : String) : Bool := decide (sub.data <:+: s.data)

/-- A positional SQL argument as passed to `db.Query`. -/
inductive Arg
  | int (i : Int)
  | str (s : String)
  | bool (b : Bool)
deriving DecidableEq, Repr

/-- `racing.ListRacesRequestFilter`.  A proto3 repeated field has no presence
distinct from emptiness, so the membership predicate is carried as a plain
list; `visible` is `optional bool`. -/
structure ListRacesRequestFilter where
  meetingIds : List Int
  visible : Option Bool
deriving DecidableEq, Repr

/-- `sports.ListEventsRequestFilter`. -/
structure ListEventsRequestFilter where
  sports : List String
  leagues : List Int
  sides : List String
  ids : List Int
  visible : Option Bool
deriving DecidableEq, Repr

/-- `racesRepo.applyFilter` (racing/db/races.go): builds the WHERE clause and
positional argument list from the filter.  The source's sequential
`clauses = append(clauses, ...)` / `args = append(args, ...)` steps are
written as list concatenations in the same fixed order. -/
def applyFilterRaces (query : String) (filter : Option ListRacesRequestFilter) :
    String × List Arg :=
  match filter with
  | none => (query, [])
  | some f =>
    let clauses :=
      (if f.meetingIds.length > 0 then
        ["meeting_id IN (" ++ goRepeat "?," (f.meetingIds.length - 1) ++ "?)"]
      else []) ++
      (match f.visible with
       | some _ => ["visible = ?"]
       | none => [])
    let args :=
      (if f.meetingIds.length > 0 then f.meetingIds.map Arg.int else []) ++
      (match f.visible with
       | some v => [Arg.bool v]
       | none => [])
    if clauses.length ≠ 0 then
      (query ++ " WHERE " ++ String.intercalate " AND " clauses, args)
    else
      (query, args)

/-- `eventsRepo.applyFilter` (sports events repository): same construction
with the five event predicates, in source order: sports, leagues, sides
(an OR clause over home and away side, with the value list appended twice),
ids, visible. -/
def applyFilterEvents (query : String) (filter : Option ListEventsRequestFilter) :
    String × List Arg :=
  match filter with
  | none => (query, [])
  | some f =>
    let clauses :=
      (if f.sports.length > 0 then
        ["sport IN (" ++ goRepeat "?," (f.sports.length - 1) ++ "?)"]
      else []) ++
      (if f.leagues.length > 0 then
        ["league IN (" ++ goRepeat "?," (f.leagues.length - 1) ++ "?)"]
      else []) ++
      (if f.sides.length > 0 then
        ["(home_side_name IN (" ++ goRepeat "?," (f.sides.length - 1) ++
          "?) OR away_side_name IN (" ++ goRepeat "?," (f.sides.length - 1) ++ "?))"]
      else []) ++
      (if f.ids.length > 0 then
        ["id IN (" ++ goRepeat "?," (f.ids.length - 1) ++ "?)"]
      else []) ++
      (match f.visible with
       | some _ => ["visible = ?"]
       | none => [])
    let args :=
      (if f.sports.length > 0 then f.sports.map Arg.str else []) ++
      (if f.leagues.length > 0 then f.leagues.map Arg.int else []) ++
      (if f.sides.length > 0 then f.sides.map Arg.str ++ f.sides.map Arg.str else []) ++
      (if f.ids.length > 0 then f.ids.map Arg.int else []) ++
      (match f.visible with
       | some v => [Arg.bool v]
       | none => [])
    if clauses.length ≠ 0 then
      (query ++ " WHERE " ++ String.intercalate " AND " clauses, args)
    else
      (query, args)

/-- The race order-by allow-list (`sortableFields` in racing/db/races.go). -/
def raceSortableFields : String → Option String
  | "name" => some "name"
  | "number" => some "number"
  | "advertised_start_time" => some "advertised_start_time"
  | _ => none

/-- The event order-by allow-list (`sortableFields` in the events
repository). -/
def eventSortableFields : String → Option String
  | "home_side_name" => some "home_side_name"
  | "away_side_name" => some "away_side_name"
  | "league" => some "league"
  | "sport" => some "sport"
  | "advertised_start_time" => some "advertised_start_time"
  | _ => none

/-- `convertOrderByFieldToSql`, parameterized by the per-resource allow-list
(the two Go copies differ only in that map).  `none` models the
index-out-of-range panic at `orderByFieldSplit[0]` when `strings.Fields`
returns no tokens; otherwise the result is the Go pair
`(orderByFieldSql, ok)`. -/
def convertOrderByFieldToSql (sortableFields : String → Option String)
    (orderByField : String) : Option (String × Bool) :=
  let orderByFieldSplit := goFields orderByField
  if orderByFieldSplit.length > 2 then some ("", false)
  else
    match orderByFieldSplit with
    | [] => none
    | field :: rest =>
      match sortableFields field with
      | none => some ("", false)
      | some databaseField =>
        match rest with
        | [dir] =>
          if goContains (goToLower dir) "desc" then some (databaseField ++ " DESC", true)
          else some (databaseField, true)
        | _ => some (databaseField, true)

/-- The loop of `convertOrderByToSql` over the comma-separated segments,
collecting the `ok` results in order; `none` propagates a panic from any
segment. -/
def collectOrderFields (sortableFields : String → Option String) :
    List String → Option (List String)
  | [] => some []
  | seg :: rest =>
    match convertOrderByFieldToSql sortableFields (goTrim seg) with
    | none => none
    | some (orderByFieldSql, ok) =>
      match collectOrderFields sortableFields rest with
      | none => none
      | some tail => some (if ok then orderByFieldSql :: tail else tail)

/-- `convertOrderByToSql`. -/
def convertOrderByToSql (sortableFields : String → Option String)
    (orderBy : String) : Option String :=
  match collectOrderFields sortableFields (goSplitComma orderBy) with
  | none => none
  | some sqls =>
    some (if sqls.length ≠ 0 then " ORDER BY " ++ String.intercalate ", " sqls else "")

/-- `applyOrdering`: appends the compiled ORDER BY clause, a no-op when no
order spec was supplied. -/
def applyOrdering (sortableFields : String → Option String)
    (query : String) (orderBy : Option String) : Option String :=
  match orderBy with
  | none => some query
  | some ob =>
    match convertOrderByToSql sortableFields ob with
    | none => none
    | some orderBySql => some (query ++ orderBySql)

/-- `getRaceStatus`: `time.Time.Before` is a strict comparison, so a race
whose advertised start is strictly before now is CLOSED, otherwise OPEN. -/
def getRaceStatus (advertisedStart now : Int) : String :=
  if advertisedStart < now then "CLOSED" else "OPEN"

/-- `getEventStatus` of the events repository, textually identical to
`getRaceStatus`. -/
def getEventStatus (advertisedStart now : Int) : String :=
  if advertisedStart < now then "CLOSED" else "OPEN"

/-- The materialized `racing.Race` domain record. -/
structure Race where
  id : Int
  meetingId : Int
  name : String
  number : Int
  visible : Bool
  advertisedStartTime : Int
  status : String
deriving DecidableEq, Repr

/-- The raw column values a successful `rows.Scan` produces for one race
row. -/
structure RaceRow where
  id : Int
  meetingId : Int
  name : String
  number : Int
  visible : Bool
  advertisedStart : Int
deriving DecidableEq, Repr

/-- Go `error` values reachable in `scanRaces`: the sentinel
`sql.ErrNoRows`, an arbitrary scan failure, and the `ptypes.TimestampProto`
range error. -/
inductive GoErr
  | errNoRows
  | scanFailed (msg : String)
  | tsOutOfRange (seconds : Int)
deriving DecidableEq, Repr

/-- Outcome of `rows.Next` + `rows.Scan` for one row of the cursor. -/
inductive RowResult
  | ok (row : RaceRow)
  | scanError (e : GoErr)
deriving DecidableEq, Repr

/-- Lower validity bound of `ptypes.TimestampProto` (0001-01-01T00:00:00Z in
Unix seconds). -/
def minValidSeconds : Int := -62135596800

/-- Upper validity bound of `ptypes.TimestampProto` (10000-01-01T00:00:00Z in
Unix seconds, exclusive). -/
def maxValidSeconds : Int := 253402300800

/-- `ptypes.TimestampProto` modelled on Unix seconds: the conversion fails
exactly when the instant falls outside the representable proto range. -/
def timestampProto (seconds : Int) : Option Int :=
  if minValidSeconds ≤ seconds ∧ seconds < maxValidSeconds then some seconds else none

/-- The loop of `scanRaces` with the accumulated `races` slice explicit. -/
def scanRacesAux (now : Int) : List RowResult → List Race → List Race × Option GoErr
  | [], races => (races, none)
  | RowResult.scanError e :: _, _ =>
    if e = GoErr.errNoRows then ([], none) else ([], some e)
  | RowResult.ok row :: rest, races =>
    match timestampProto row.advertisedStart with
    | none => ([], some (GoErr.tsOutOfRange row.advertisedStart))
    | some ts =>
      scanRacesAux now rest (races ++
        [{ id := row.id, meetingId := row.meetingId, name := row.name,
           number := row.number, visible := row.visible,
           advertisedStartTime := ts,
           status := getRaceStatus row.advertisedStart now }])

/-- `racesRepo.scanRaces`: materializes the cursor rows into domain records,
returning the Go pair `([]*racing.Race, error)`.  `now` is the wall-clock
instant sampled by `time.Now()` during the call. -/
def scanRaces (now : Int) (rows : List RowResult) : List Race × Option GoErr :=
  scanRacesAux now rows []

/-- Process-wide repository state relevant to `Init`: how many times `seed`
has run, and whether the `sync.Once` gate has fired. -/
structure RepoState where
  seedCount : Nat
  initDone : Bool
deriving DecidableEq, Repr

/-- `racesRepo.Init` / `eventsRepo.Init`: `err` is a fresh local variable of
each call and `sync.Once.Do` runs its body only the first time, so a later
call leaves `err` at its zero value `nil` even if the first seed failed.
`seedErr` is the value `r.seed()` returns when it actually runs. -/
def Init (seedErr : Option String) (s : RepoState) : Option String × RepoState :=
  if s.initDone then (none, s)
  else (seedErr, { seedCount := s.seedCount + 1, initDone := true })

/-- The materialized `sports.Event` domain record. -/
structure Event where
  id : Int
  sport : String
  league : Int
  homeSideName : String
  awaySideName : String
  name : String
  visible : Bool
  advertisedStartTime : Int
  status : String
deriving DecidableEq, Repr

/-- The filter `Get` constructs:
`sports.ListEventsRequestFilter{Ids: []int64{id}}`. -/
def getFilter (id : Int) : ListEventsRequestFilter :=
  { sports := [], leagues := [], sides := [], ids := [id], visible := none }

/-- `eventsRepo.Get`, parameterized by the `List` implementation it calls:
it lists with a single-value id-membership filter and `nil` ordering, then
demands exactly one result, otherwise fails with the formatted not-found
error. -/
def Get (listEvents : Option ListEventsRequestFilter → Option String → List Event × Option String)
    (id : Int) : Option Event × Option String :=
  match listEvents (some (getFilter id)) none with
  | (_, some e) => (none, some e)
  | (events, none) =>
    if events.length ≠ 1 then (none, some ("no event with id: " ++ toString id))
    else (events.head?, none)

/-! Helper lemmas. -/

/-- Every record in the materializer output carries the status computed by
`getRaceStatus` from its own advertised start instant, for any accumulator
whose records already satisfy that invariant. -/
theorem scanRacesAux_status (now : Int) :
    ∀ (rows : List RowResult) (acc : List Race),
      (∀ r ∈ acc, r.status = getRaceStatus r.advertisedStartTime now) →
      ∀ race ∈ (scanRacesAux now rows acc).1,
        race.status = getRaceStatus race.advertisedStartTime now := by
  intro rows
  induction rows with
  | nil =>
    intro acc h race hr
    exact h race (by simpa [scanRacesAux] using hr)
  | cons r rest ih =>
    intro acc h race hr
    cases r with
    | scanError e =>
      by_cases he : e = GoErr.errNoRows <;> simp [scanRacesAux, he] at hr
    | ok row =>
      cases htp : timestampProto row.advertisedStart with
      | none => simp [scanRacesAux, htp] at hr
      | some ts =>
        have hts : ts = row.advertisedStart := by
          unfold timestampProto at htp
          split at htp
          · exact (Option.some.inj htp).symm
          · cases htp
        refine ih (acc ++ [_]) ?_ race (by simpa [scanRacesAux, htp] using hr)
        intro x hx
        rcases List.mem_append.mp hx with hx | hx
        · exact h x hx
        · simp only [List.mem_singleton] at hx
          subst hx
          simp [hts]

/-! Claim theorems. -/

/-- C3 (the code): on an order specification with an empty or whitespace-only
comma segment — the empty string included — the order compiler does not
return normally: `strings.Fields` yields no tokens and the unconditional
index `orderByFieldSplit[0]` panics (modelled as `none`), instead of the
segment being silently discarded as the specification states. -/
theorem orderCompiler_panics_on_empty_segment :
    convertOrderByToSql raceSortableFields "" = none ∧
    applyOrdering raceSortableFields "SELECT 1" (some "") = none ∧
    convertOrderByToSql eventSortableFields "name,,number" = none ∧
    convertOrderByToSql raceSortableFields "  " = none := by decide

/-- C4 (counterexample): when the first seed fails, the first `Init` call
returns that error but the second call returns `nil`, not the first call's
error — `err` is a fresh local of each call and `sync.Once.Do` skips the
body on the second call. -/
theorem init_second_call_drops_error :
    (Init (some "seed failed") ⟨0, false⟩).1 = some "seed failed" ∧
    (Init (some "seed failed") (Init (some "seed failed") ⟨0, false⟩).2).1 = none := by
  decide

/-- C4 (amended): calling `Init` twice performs seeding work at most once;
the second and every later call is a no-op that returns `nil` (no error),
regardless of the first call's outcome. -/
theorem init_idempotent_amended (seedErr : Option String) (s : RepoState) :
    (Init seedErr (Init seedErr s).2).1 = none ∧
    (Init seedErr (Init seedErr s).2).2 = (Init seedErr s).2 ∧
    (Init seedErr ⟨0, false⟩).2.seedCount = 1 := by
  obtain ⟨c, d⟩ := s
  cases d <;> simp [Init]

/-- C5 (counterexample): a membership predicate with zero values emits no
clause at all — the compiled query is the base query unchanged and contains
no `IN` fragment — because each membership clause is guarded by a
`len(...) > 0` check in the source. -/
theorem empty_membership_emits_no_clause :
    applyFilterRaces "SELECT * FROM races" (some ⟨[], none⟩) =
      ("SELECT * FROM races", []) ∧
    goContains (applyFilterRaces "SELECT * FROM races" (some ⟨[], none⟩)).1 "IN" = false ∧
    applyFilterEvents "SELECT * FROM events" (some ⟨[], [], [], [], none⟩) =
      ("SELECT * FROM events", []) := by decide

/-- C5 (amended): a set-membership predicate with zero values is treated
exactly as an absent predicate: the compiler emits no clause for that field
(and the clause `F IN ()` is never produced), the remaining predicates
compiling as usual. -/
theorem empty_membership_amended (q : String) (v : Option Bool) :
    applyFilterRaces q (some ⟨[], v⟩) =
      (match v with
       | none => (q, [])
       | some b => (q ++ " WHERE visible = ?", [Arg.bool b])) ∧
    applyFilterEvents q (some ⟨[], [], [], [], v⟩) =
      (match v with
       | none => (q, [])
       | some b => (q ++ " WHERE visible = ?", [Arg.bool b])) := by
  cases v <;> simp [applyFilterRaces, applyFilterEvents, String.append_assoc] <;> rfl

/-- C6: the derived status is exactly one of OPEN or CLOSED and is determined
solely by comparing the advertised start instant to the current time —
strictly before now gives CLOSED, otherwise OPEN; the events repository's
status function is identical, and every row the materializer produces
carries that status for its own advertised start time. -/
theorem race_status_open_or_closed :
    (∀ t now : Int,
       (getRaceStatus t now = "CLOSED" ↔ t < now) ∧
       (getRaceStatus t now = "CLOSED" ∨ getRaceStatus t now = "OPEN")) ∧
    getEventStatus = getRaceStatus ∧
    (∀ (now : Int) (rows : List RowResult), ∀ race ∈ (scanRaces now rows).1,
       race.status = getRaceStatus race.advertisedStartTime now) := by
  refine ⟨?_, rfl, ?_⟩
  · intro t now
    constructor
    · constructor
      · intro hc
        by_contra hlt
        rw [getRaceStatus, if_neg hlt] at hc
        exact absurd hc (by decide)
      · intro hlt
        rw [getRaceStatus, if_pos hlt]
    · rw [getRaceStatus]
      split
      · exact Or.inl rfl
      · exact Or.inr rfl
  · intro now rows race hr
    exact scanRacesAux_status now rows [] (by simp) race hr

/-- C6 (witness): a row one second in the past materializes as CLOSED via the
main theorem. -/
theorem race_status_open_or_closed_witness :
    (⟨1, 2, "r", 3, true, 0, "CLOSED"⟩ : Race).status =
      getRaceStatus (⟨1, 2, "r", 3, true, 0, "CLOSED"⟩ : Race).advertisedStartTime 5 :=
  race_status_open_or_closed.2.2 5 [RowResult.ok ⟨1, 2, "r", 3, true, 0⟩]
    ⟨1, 2, "r", 3, true, 0, "CLOSED"⟩ (by decide)

/-- String.intercalate of a one-element list is that element. -/
theorem intercalate_singleton (s x : String) : String.intercalate s [x] = x := rfl

/-- Number of `?` placeholders in a piece of SQL text. -/
def countPlaceholders (s : String) : Nat := s.data.count '?'

/-- Placeholder counting distributes over string concatenation. -/
theorem countPlaceholders_append (a b : String) :
    countPlaceholders (a ++ b) = countPlaceholders a + countPlaceholders b := by
  simp [countPlaceholders, String.data_append, List.count_append]

/-- A repeated `"?,"` block holds one placeholder per repetition. -/
theorem countPlaceholders_goRepeat (n : Nat) :
    countPlaceholders (goRepeat "?," n) = n := by
  induction n with
  | zero => rfl
  | succ k ih =>
    have h1 : countPlaceholders "?," = 1 := rfl
    simp [goRepeat, countPlaceholders_append, ih, h1]
    omega

/-- C1: the compiled query text depends only on the shape of the filter —
which predicates are present and how many values each carries — never on the
values themselves, for the races filter and for the events filter alike.
Together with the placeholder layout proved in `membership_placeholders`,
this is the guarantee that caller-supplied values never appear literally in
the SQL text. -/
theorem filter_query_depends_only_on_shape :
    (∀ (q : String) (f g : ListRacesRequestFilter),
       f.meetingIds.length = g.meetingIds.length →
       f.visible.isSome = g.visible.isSome →
       (applyFilterRaces q (some f)).1 = (applyFilterRaces q (some g)).1) ∧
    (∀ (q : String) (f g : ListEventsRequestFilter),
       f.sports.length = g.sports.length →
       f.leagues.length = g.leagues.length →
       f.sides.length = g.sides.length →
       f.ids.length = g.ids.length →
       f.visible.isSome = g.visible.isSome →
       (applyFilterEvents q (some f)).1 = (applyFilterEvents q (some g)).1) := by
  constructor
  · intro q f g hm hv
    obtain ⟨fm, fv⟩ := f
    obtain ⟨gm, gv⟩ := g
    simp only at hm hv
    cases fv <;> cases gv <;> simp_all [applyFilterRaces] <;> try split <;> rfl
  · intro q f g h1 h2 h3 h4 hv
    obtain ⟨fs, fl, fsd, fi, fv⟩ := f
    obtain ⟨gs, gl, gsd, gi, gv⟩ := g
    simp only at h1 h2 h3 h4 hv
    cases fv <;> cases gv <;> simp_all [applyFilterEvents] <;> try split <;> rfl

/-- C1 (witness): two filters of identical shape but different values compile
to the identical query text. -/
theorem filter_query_depends_only_on_shape_witness :
    (applyFilterRaces "SELECT * FROM races" (some ⟨[1, 2], some true⟩)).1 =
      (applyFilterRaces "SELECT * FROM races" (some ⟨[7, 99], some false⟩)).1 :=
  filter_query_depends_only_on_shape.1 "SELECT * FROM races"
    ⟨[1, 2], some true⟩ ⟨[7, 99], some false⟩ rfl rfl

/-- C7: a non-empty membership filter with values v1..vn compiles to a clause
with exactly n placeholders and appends exactly v1..vn, in order, to the
argument list; the query text is a function of n alone (the values appear
nowhere in it).  For the OR-side filter the value list is appended twice,
once per side field, and the clause carries n placeholders per side. -/
theorem membership_placeholders :
    (∀ (q : String) (vs : List Int), vs ≠ [] →
       applyFilterRaces q (some ⟨vs, none⟩) =
         (q ++ " WHERE " ++
           ("meeting_id IN (" ++ goRepeat "?," (vs.length - 1) ++ "?)"),
          vs.map Arg.int) ∧
       countPlaceholders (applyFilterRaces q (some ⟨vs, none⟩)).1 =
         countPlaceholders q + vs.length) ∧
    (∀ (q : String) (ss : List String), ss ≠ [] →
       applyFilterEvents q (some ⟨[], [], ss, [], none⟩) =
         (q ++ " WHERE " ++
           ("(home_side_name IN (" ++ goRepeat "?," (ss.length - 1) ++
             "?) OR away_side_name IN (" ++ goRepeat "?," (ss.length - 1) ++ "?))"),
          ss.map Arg.str ++ ss.map Arg.str) ∧
       countPlaceholders (applyFilterEvents q (some ⟨[], [], ss, [], none⟩)).1 =
         countPlaceholders q + (ss.length + ss.length)) := by
  constructor
  · intro q vs hne
    have hlen : 0 < vs.length := List.length_pos.mpr hne
    have heq : applyFilterRaces q (some ⟨vs, none⟩) =
        (q ++ " WHERE " ++
          ("meeting_id IN (" ++ goRepeat "?," (vs.length - 1) ++ "?)"),
         vs.map Arg.int) := by
      simp [applyFilterRaces, hlen, intercalate_singleton]
    refine ⟨heq, ?_⟩
    rw [heq]
    have c1 : countPlaceholders " WHERE " = 0 := rfl
    have c2 : countPlaceholders "meeting_id IN (" = 0 := rfl
    have c3 : countPlaceholders "?)" = 1 := rfl
    simp [countPlaceholders_append, countPlaceholders_goRepeat, c1, c2, c3]
    omega
  · intro q ss hne
    have hlen : 0 < ss.length := List.length_pos.mpr hne
    have heq : applyFilterEvents q (some ⟨[], [], ss, [], none⟩) =
        (q ++ " WHERE " ++
          ("(home_side_name IN (" ++ goRepeat "?," (ss.length - 1) ++
            "?) OR away_side_name IN (" ++ goRepeat "?," (ss.length - 1) ++ "?))"),
         ss.map Arg.str ++ ss.map Arg.str) := by
      simp [applyFilterEvents, hlen, intercalate_singleton]
    refine ⟨heq, ?_⟩
    rw [heq]
    have c1 : countPlaceholders " WHERE " = 0 := rfl
    have c2 : countPlaceholders "(home_side_name IN (" = 0 := rfl
    have c3 : countPlaceholders "?) OR away_side_name IN (" = 1 := rfl
    have c4 : countPlaceholders "?))" = 1 := rfl
    simp [countPlaceholders_append, countPlaceholders_goRepeat, c1, c2, c3, c4]
    omega

/-- C7 (witness): values [5, 6, 7] give three placeholders and [s1, s2] on
the side filter gives arguments [s1, s2, s1, s2]. -/
theorem membership_placeholders_witness :
    applyFilterRaces "Q" (some ⟨[5, 6, 7], none⟩) =
      ("Q WHERE meeting_id IN (?,?,?)", [Arg.int 5, Arg.int 6, Arg.int 7]) ∧
    applyFilterEvents "Q" (some ⟨[], [], ["s1", "s2"], [], none⟩) =
      ("Q WHERE (home_side_name IN (?,?) OR away_side_name IN (?,?))",
       [Arg.str "s1", Arg.str "s2", Arg.str "s1", Arg.str "s2"]) :=
  ⟨((membership_placeholders.1 "Q" [5, 6, 7] (by decide)).1).trans (by decide),
   ((membership_placeholders.2 "Q" ["s1", "s2"] (by decide)).1).trans (by decide)⟩

/-- C8: on a two-token segment whose field is allow-listed, the compiler
yields the mapped column with the suffix " DESC" exactly when the direction
token, lowercased, contains the substring "desc" anywhere; any other
direction token leaves the column without a suffix.  Concretely,
"name desc, number" on the race allow-list appends exactly
" ORDER BY name DESC, number" to the query. -/
theorem orderDesc_suffix :
    (∀ (seg field dir col : String),
       goFields seg = [field, dir] →
       raceSortableFields field = some col →
       convertOrderByFieldToSql raceSortableFields seg =
         some ((if goContains (goToLower dir) "desc" then col ++ " DESC" else col),
               true)) ∧
    (∀ q : String,
       applyOrdering raceSortableFields q (some "name desc, number") =
         some (q ++ " ORDER BY name DESC, number")) := by
  constructor
  · intro seg field dir col hsplit hcol
    simp only [convertOrderByFieldToSql, hsplit, hcol]
    norm_num
    split <;> rfl
  · intro q
    have h : convertOrderByToSql raceSortableFields "name desc, number" =
        some " ORDER BY name DESC, number" := by decide
    simp [applyOrdering, h]

/-- C8 (witness): a direction token containing "desc" in mixed case deep
inside still selects descending order, via the main theorem. -/
theorem orderDesc_suffix_witness :
    convertOrderByFieldToSql raceSortableFields "number dEsCending" =
      some ("number DESC", true) :=
  (orderDesc_suffix.1 "number dEsCending" "number" "dEsCending" "number"
    (by decide) (by decide)).trans (by decide)

/-- A compiled order segment is legitimate when it is the mapped column of
some allow-listed field, optionally suffixed with " DESC". -/
def validOrderSegment (sortableFields : String → Option String) (seg : String) : Prop :=
  ∃ field databaseField, sortableFields field = some databaseField ∧
    (seg = databaseField ∨ seg = databaseField ++ " DESC")

/-- Any segment the per-field compiler accepts is a legitimate allow-listed
segment. -/
theorem convertOrderByFieldToSql_ok_valid (sf : String → Option String)
    (seg s : String) (h : convertOrderByFieldToSql sf seg = some (s, true)) :
    validOrderSegment sf s := by
  simp only [convertOrderByFieldToSql] at h
  cases hsp : goFields seg with
  | nil => rw [hsp] at h; cases h
  | cons field rest =>
    rw [hsp] at h
    cases rest with
    | nil =>
      simp only [List.length_cons, List.length_nil] at h
      norm_num at h
      cases hsf : sf field with
      | none => rw [hsf] at h; simp at h
      | some databaseField =>
        simp only [hsf] at h
        simp at h
        exact ⟨field, databaseField, hsf, Or.inl h.symm⟩
    | cons dir rest2 =>
      cases rest2 with
      | nil =>
        simp only [List.length_cons, List.length_nil] at h
        norm_num at h
        cases hsf : sf field with
        | none => rw [hsf] at h; simp at h
        | some databaseField =>
          simp only [hsf] at h
          by_cases hd : goContains (goToLower dir) "desc" = true
          · rw [if_pos hd] at h
            simp at h
            exact ⟨field, databaseField, hsf, Or.inr h.symm⟩
          · rw [if_neg hd] at h
            simp at h
            exact ⟨field, databaseField, hsf, Or.inl h.symm⟩
      | cons c rest3 =>
        simp only [List.length_cons] at h
        norm_num at h

/-- Every segment the order-compiler loop collects is legitimate. -/
theorem collectOrderFields_valid (sf : String → Option String) :
    ∀ (segs sqls : List String), collectOrderFields sf segs = some sqls →
      ∀ s ∈ sqls, validOrderSegment sf s := by
  intro segs
  induction segs with
  | nil =>
    intro sqls h s hs
    simp [collectOrderFields] at h
    subst h
    simp at hs
  | cons seg rest ih =>
    intro sqls h s hs
    simp only [collectOrderFields] at h
    cases hc : convertOrderByFieldToSql sf (goTrim seg) with
    | none => rw [hc] at h; cases h
    | some pr =>
      rw [hc] at h
      obtain ⟨sql1, ok⟩ := pr
      cases hrest : collectOrderFields sf rest with
      | none => rw [hrest] at h; cases h
      | some tail =>
        rw [hrest] at h
        have hsq := Option.some.inj h
        subst hsq
        cases ok with
        | true =>
          rcases List.mem_cons.mp (by simpa using hs) with hs1 | hs2
          · subst hs1
            exact convertOrderByFieldToSql_ok_valid sf (goTrim seg) s hc
          · exact ih tail hrest s hs2
        | false => exact ih tail hrest s (by simpa using hs)

/-- Decides that a segment's first whitespace token exists and is not an
allow-listed field name (the reading of "contains only unrecognized field
names" for one comma segment). -/
def segFieldUnrecognized (sf : String → Option String) (seg : String) : Bool :=
  match goFields (goTrim seg) with
  | [] => false
  | field :: _ => (sf field).isNone

/-- A segment whose field is present but unrecognized is silently dropped:
the per-field compiler returns ok = false for it. -/
theorem unrecognized_field_dropped (sf : String → Option String) (seg : String)
    (h : segFieldUnrecognized sf seg = true) :
    convertOrderByFieldToSql sf (goTrim seg) = some ("", false) := by
  unfold segFieldUnrecognized at h
  cases hsp : goFields (goTrim seg) with
  | nil => rw [hsp] at h; simp at h
  | cons field rest =>
    rw [hsp] at h
    simp only [Option.isNone_iff_eq_none] at h
    have hsf : sf field = none := h
    simp only [convertOrderByFieldToSql, hsp]
    cases rest with
    | nil => simp [hsf]
    | cons d rest2 =>
      cases rest2 with
      | nil => simp [hsf]
      | cons d2 rest3 => simp

/-- An order spec all of whose segments have unrecognized fields collects no
compiled segments at all. -/
theorem collect_unrecognized (sf : String → Option String) :
    ∀ segs : List String,
      (∀ seg ∈ segs, segFieldUnrecognized sf seg = true) →
      collectOrderFields sf segs = some [] := by
  intro segs
  induction segs with
  | nil => intro _; rfl
  | cons seg rest ih =>
    intro h
    have h1 := unrecognized_field_dropped sf seg (h seg (by simp))
    have h2 := ih (fun s hs => h s (by simp [hs]))
    simp [collectOrderFields, h1, h2]

/-- C2: every segment emitted into the compiled ORDER BY clause is an
allow-listed column name optionally followed by " DESC" (for any allow-list,
hence for the race and event lists); the collected segments make up the
whole clause; and an order spec containing only unrecognized field names
leaves the query without any ORDER BY clause. -/
theorem orderBy_allow_listed :
    (∀ (sortableFields : String → Option String) (orderBy : String)
       (sqls : List String),
       collectOrderFields sortableFields (goSplitComma orderBy) = some sqls →
       ∀ seg ∈ sqls, validOrderSegment sortableFields seg) ∧
    (∀ (sortableFields : String → Option String) (orderBy : String)
       (sqls : List String),
       collectOrderFields sortableFields (goSplitComma orderBy) = some sqls →
       sqls ≠ [] →
       convertOrderByToSql sortableFields orderBy =
         some (" ORDER BY " ++ String.intercalate ", " sqls)) ∧
    (∀ (q orderBy : String),
       (∀ seg ∈ goSplitComma orderBy,
          segFieldUnrecognized raceSortableFields seg = true) →
       applyOrdering raceSortableFields q (some orderBy) = some q) := by
  refine ⟨?_, ?_, ?_⟩
  · intro sf orderBy sqls h seg hseg
    exact collectOrderFields_valid sf (goSplitComma orderBy) sqls h seg hseg
  · intro sf orderBy sqls h hne
    simp [convertOrderByToSql, h, hne]
  · intro q orderBy h
    have hc := collect_unrecognized raceSortableFields (goSplitComma orderBy) h
    simp [applyOrdering, convertOrderByToSql, hc, String.append_empty]

/-- C2 (witness): a compiled segment of a real spec is allow-listed, and a
spec made of unknown fields leaves the query untouched, via the main
theorem. -/
theorem orderBy_allow_listed_witness :
    validOrderSegment raceSortableFields "name DESC" ∧
    applyOrdering raceSortableFields "Q" (some "foo, bar desc") = some "Q" :=
  ⟨orderBy_allow_listed.1 raceSortableFields "name desc" ["name DESC"]
     (by decide) "name DESC" (by decide),
   orderBy_allow_listed.2.2 "Q" "foo, bar desc" (by decide)⟩

/-- C9: get-by-id lists with a single-value id-membership filter and no
ordering — that filter compiles to exactly `... WHERE id IN (?)` with the id
as sole argument — and then demands exactly one row: one event is returned
as-is with no error, while any other result count yields no event and the
formatted not-found error. -/
theorem get_by_id_spec :
    (∀ (q : String) (id : Int),
       applyFilterEvents q (some (getFilter id)) =
         (q ++ " WHERE " ++ "id IN (?)", [Arg.int id])) ∧
    (∀ (listEvents :
         Option ListEventsRequestFilter → Option String → List Event × Option String)
       (id : Int) (e : Event),
       listEvents (some (getFilter id)) none = ([e], none) →
       Get listEvents id = (some e, none)) ∧
    (∀ (listEvents :
         Option ListEventsRequestFilter → Option String → List Event × Option String)
       (id : Int) (events : List Event),
       listEvents (some (getFilter id)) none = (events, none) →
       events.length ≠ 1 →
       Get listEvents id = (none, some ("no event with id: " ++ toString id))) := by
  refine ⟨?_, ?_, ?_⟩
  · intro q id
    rfl
  · intro listEvents id e h
    simp [Get, h]
  · intro listEvents id events h hne
    simp [Get, h, hne]

/-- C9 (witness): one matching row is returned; an absent id fails with the
not-found error, via the main theorem. -/
theorem get_by_id_spec_witness :
    Get (fun _ _ => ([⟨5, "football", 1, "A", "B", "A vs B", true, 0, "OPEN"⟩], none)) 5 =
      (some ⟨5, "football", 1, "A", "B", "A vs B", true, 0, "OPEN"⟩, none) ∧
    Get (fun _ _ => ([], none)) 7 = (none, some "no event with id: 7") :=
  ⟨get_by_id_spec.2.1 _ 5 _ rfl,
   (get_by_id_spec.2.2 _ 7 [] rfl (by decide)).trans (by decide)⟩

/-- C10 (counterexample): a row that fails to scan with the sentinel
`sql.ErrNoRows` does abort materialization and discard the already
materialized first row, but the function returns no error at all — `(nil,
nil)` — where the claim requires the scan error to be returned. -/
theorem scan_errNoRows_counterexample :
    scanRaces 5 [RowResult.ok ⟨1, 2, "r", 3, true, 0⟩,
                 RowResult.scanError GoErr.errNoRows] = ([], none) := by decide

/-- A materializer result carrying an error carries no domain objects. -/
theorem scanRacesAux_error_nil (now : Int) :
    ∀ (rows : List RowResult) (acc races : List Race) (e : GoErr),
      scanRacesAux now rows acc = (races, some e) → races = [] := by
  intro rows
  induction rows with
  | nil =>
    intro acc races e h
    simp [scanRacesAux] at h
  | cons r rest ih =>
    intro acc races e h
    cases r with
    | scanError e2 =>
      by_cases he : e2 = GoErr.errNoRows
      · simp [scanRacesAux, he] at h
      · simp [scanRacesAux, he] at h
        exact h.1
    | ok row =>
      cases htp : timestampProto row.advertisedStart with
      | none =>
        simp [scanRacesAux, htp] at h
        exact h.1
      | some ts =>
        simp only [scanRacesAux, htp] at h
        exact ih _ races e h

/-- Hitting a scan failure after any run of cleanly converting rows yields
the empty slice, paired with the error unless it is the no-rows sentinel. -/
theorem scanRacesAux_scan_fail (now : Int) (e : GoErr) (rest : List RowResult) :
    ∀ (pre : List RaceRow) (acc : List Race),
      (∀ r ∈ pre, (timestampProto r.advertisedStart).isSome) →
      scanRacesAux now (pre.map RowResult.ok ++ RowResult.scanError e :: rest) acc =
        (if e = GoErr.errNoRows then ([], none) else ([], some e)) := by
  intro pre
  induction pre with
  | nil =>
    intro acc _
    simp only [List.map_nil, List.nil_append, scanRacesAux]
  | cons r pre2 ih =>
    intro acc h
    have hr : (timestampProto r.advertisedStart).isSome = true := h r (by simp)
    obtain ⟨ts, hts⟩ := Option.isSome_iff_exists.mp hr
    simp only [List.map_cons, List.cons_append, scanRacesAux, hts]
    exact ih _ (fun x hx => h x (by simp [hx]))

/-- Hitting a timestamp-conversion failure after any run of cleanly
converting rows yields the empty slice and the conversion error. -/
theorem scanRacesAux_ts_fail (now : Int) (row : RaceRow) (rest : List RowResult)
    (htp : timestampProto row.advertisedStart = none) :
    ∀ (pre : List RaceRow) (acc : List Race),
      (∀ r ∈ pre, (timestampProto r.advertisedStart).isSome) →
      scanRacesAux now (pre.map RowResult.ok ++ RowResult.ok row :: rest) acc =
        ([], some (GoErr.tsOutOfRange row.advertisedStart)) := by
  intro pre
  induction pre with
  | nil =>
    intro acc _
    simp only [List.map_nil, List.nil_append, scanRacesAux, htp]
  | cons r pre2 ih =>
    intro acc h
    have hr : (timestampProto r.advertisedStart).isSome = true := h r (by simp)
    obtain ⟨ts, hts⟩ := Option.isSome_iff_exists.mp hr
    simp only [List.map_cons, List.cons_append, scanRacesAux, hts]
    exact ih _ (fun x hx => h x (by simp [hx]))

/-- C10 (amended): if any row fails to scan or its timestamp conversion
fails, materialization aborts immediately, discarding every row materialized
before the failure, and returns the error — except that a scan failure equal
to the sentinel no-rows error is swallowed and reported as an empty
successful result; in every case no partial result is returned alongside an
error. -/
theorem scan_abort_amended :
    (∀ (now : Int) (rows : List RowResult) (races : List Race) (e : GoErr),
       scanRaces now rows = (races, some e) → races = []) ∧
    (∀ (now : Int) (pre : List RaceRow) (e : GoErr) (rest : List RowResult),
       (∀ r ∈ pre, (timestampProto r.advertisedStart).isSome) →
       scanRaces now (pre.map RowResult.ok ++ RowResult.scanError e :: rest) =
         (if e = GoErr.errNoRows then ([], none) else ([], some e))) ∧
    (∀ (now : Int) (pre : List RaceRow) (row : RaceRow) (rest : List RowResult),
       (∀ r ∈ pre, (timestampProto r.advertisedStart).isSome) →
       timestampProto row.advertisedStart = none →
       scanRaces now (pre.map RowResult.ok ++ RowResult.ok row :: rest) =
         ([], some (GoErr.tsOutOfRange row.advertisedStart))) := by
  refine ⟨?_, ?_, ?_⟩
  · intro now rows races e h
    exact scanRacesAux_error_nil now rows [] races e h
  · intro now pre e rest h
    exact scanRacesAux_scan_fail now e rest pre [] h
  · intro now pre row rest h htp
    exact scanRacesAux_ts_fail now row rest htp pre [] h

/-- C10 (witness): an ordinary scan failure in the second row discards the
already materialized first row and surfaces the error, via the main
theorem. -/
theorem scan_abort_amended_witness :
    scanRaces 5 [RowResult.ok ⟨1, 2, "r", 3, true, 0⟩,
                 RowResult.scanError (GoErr.scanFailed "bad"),
                 RowResult.ok ⟨9, 9, "x", 9, false, 0⟩] =
      ([], some (GoErr.scanFailed "bad")) :=
  (scan_abort_amended.2.1 5 [⟨1, 2, "r", 3, true, 0⟩] (GoErr.scanFailed "bad")
    [RowResult.ok ⟨9, 9, "x", 9, false, 0⟩] (by decide)).trans (by decide)
